import Mathlib

/-!
Shallow embedding of the command-execution engine of `shell.py`
(a minimal Unix-like shell: tokenizing, pipeline splitting, redirection
parsing, command resolution, builtins, pipeline orchestration and
wait-status translation), together with theorems settling the frozen
claims about it.

Conventions of the embedding:
* Python strings are Lean `String`s; character-level work happens on
  `String.data : List Char`.
* OS effects (stat/access, open, chdir, execve, waitpid) are supplied by a
  `Ctx` record of oracle functions, so every operation is a pure function
  of its inputs and the oracle.
* A child process's visible behaviour is a `ChildOutcome` (exit code plus
  the lines written to stderr and stdout, or a successful image
  replacement); `run_pipeline` returns a `PipelineTrace` recording the
  returned result, the children it spawned and the pids it waited on.
-/

namespace Shell

/-- Single-quote character (ASCII 39). -/
def squoteC : Char := Char.ofNat 39

/-- Double-quote character (ASCII 34). -/
def dquoteC : Char := Char.ofNat 34

/-- Whitespace as recognized by Python's `\s` / `str.isspace` for the ASCII
range: space, tab, newline, carriage return, vertical tab, form feed. -/
def isWs (c : Char) : Bool :=
  c == ' ' || c == '\t' || c == '\n' || c == '\r' ||
  c == Char.ofNat 11 || c == Char.ofNat 12

/-- Characters allowed in a bare (unquoted) token: the regex class
`[^ \t\r\n'"]` of `_token_re` in `shell.py`. -/
def isBareChar (c : Char) : Bool :=
  !(c == ' ' || c == '\t' || c == '\r' || c == '\n' || c == squoteC || c == dquoteC)

/-- Python `str.strip()` on a character list. -/
def pyStripL (cs : List Char) : List Char :=
  ((cs.dropWhile isWs).reverse.dropWhile isWs).reverse

/-- Python `str.strip()`. -/
def pyStrip (s : String) : String := String.mk (pyStripL s.data)

/-- Python `str.rstrip()`. -/
def pyRstrip (s : String) : String :=
  String.mk ((s.data.reverse.dropWhile isWs).reverse)

/-- Scan for the closing quote `q`: on success return the characters before
the first occurrence of `q` and the remainder after it (the regex piece
`[^q]*q`). -/
def findClose (q : Char) : List Char → Option (List Char × List Char)
  | [] => none
  | c :: rest =>
    if c == q then some ([], rest)
    else
      match findClose q rest with
      | none => none
      | some (a, b) => some (c :: a, b)

/-- Match the parenthesised group of `_token_re` at the head of the input:
a single-quoted run, a double-quoted run, or a maximal bare run. Returns
the matched text (quotes included) and the remainder. -/
def groupMatch : List Char → Option (List Char × List Char)
  | [] => none
  | c :: rest =>
    if c == squoteC then
      match findClose squoteC rest with
      | some (content, rem) => some (squoteC :: (content ++ [squoteC]), rem)
      | none => none
    else if c == dquoteC then
      match findClose dquoteC rest with
      | some (content, rem) => some (dquoteC :: (content ++ [dquoteC]), rem)
      | none => none
    else if isBareChar c then
      some (c :: rest.takeWhile isBareChar, rest.dropWhile isBareChar)
    else none

/-- Backtracking over the greedy `\s*` prefix of `_token_re`: try the group
after skipping `k` characters, for `k` from the given bound down to 0. -/
def reTry (cs : List Char) : Nat → Option (List Char × List Char)
  | 0 => groupMatch cs
  | k + 1 =>
    match groupMatch (cs.drop (k + 1)) with
    | some r => some r
    | none => reTry cs k

/-- Length of the maximal whitespace prefix. -/
def leadingWs (cs : List Char) : Nat := (cs.takeWhile isWs).length

/-- `_token_re.match` at the head of the input: greedy whitespace skip,
then the group, with backtracking. Returns `(group, remainder)`. -/
def reMatch (cs : List Char) : Option (List Char × List Char) :=
  reTry cs (leadingWs cs)

/-- Quote-delimiter stripping of `tokenize`: if the token has length at
least 2 and starts and ends with the same quote character, drop both. -/
def stripQuotes (t : List Char) : List Char :=
  if 2 ≤ t.length ∧
      ((t.head? = some squoteC ∧ t.getLast? = some squoteC) ∨
       (t.head? = some dquoteC ∧ t.getLast? = some dquoteC)) then
    (t.drop 1).dropLast
  else t

/-- Main loop of `tokenize`, with fuel (each iteration consumes at least
one character, so `cs.length` fuel always suffices). On a failed regex
match, a whitespace character is skipped and any other character becomes a
one-character token. -/
def tokenizeGo : Nat → List Char → List (List Char)
  | _, [] => []
  | 0, _ :: _ => []
  | fuel + 1, c :: rest =>
    match reMatch (c :: rest) with
    | some (tok, rem) => stripQuotes tok :: tokenizeGo fuel rem
    | none =>
      if isWs c then tokenizeGo fuel rest
      else [c] :: tokenizeGo fuel rest

/-- `tokenize` on a character list. -/
def tokenizeL (cs : List Char) : List (List Char) := tokenizeGo cs.length cs

/-- `tokenize`: split a single pipeline stage into argv-like tokens. -/
def tokenize (s : String) : List String := (tokenizeL s.data).map String.mk

/-- Character loop of `split_pipeline` with the in-single-quote /
in-double-quote state and the current segment buffer (kept reversed). -/
def spAux : List Char → Bool → Bool → List Char → List String
  | [], _, _, buf => if buf.isEmpty then [] else [pyStrip (String.mk buf.reverse)]
  | ch :: rest, in_s, in_d, buf =>
    if ch == squoteC && !in_d then spAux rest (!in_s) in_d (ch :: buf)
    else if ch == dquoteC && !in_s then spAux rest in_s (!in_d) (ch :: buf)
    else if ch == '|' && !in_s && !in_d then
      pyStrip (String.mk buf.reverse) :: spAux rest in_s in_d []
    else spAux rest in_s in_d (ch :: buf)

/-- `split_pipeline`: split a line into pipeline segments at unquoted `|`,
trim each, drop empties. -/
def split_pipeline (line : String) : List String :=
  (spAux line.data false false []).filter (fun s => s != "")

/-- Python `str.endswith(chr(38))` restricted to the ampersand. -/
def endsWithAmp (s : String) : Bool :=
  match s.data.getLast? with
  | some c => c == '&'
  | none => false

/-- Python `s[:-1]`. -/
def dropLastChar (s : String) : String := String.mk s.data.dropLast

/-- `parse_background`: strip a trailing ampersand (after trailing
whitespace) and report the background flag; otherwise return the line
unchanged. -/
def parse_background (line : String) : String × Bool :=
  let stripped := pyRstrip line
  if endsWithAmp stripped then (pyRstrip (dropLastChar stripped), true)
  else (line, false)

/-- Iterative loop of `parse_redirections`: `acc` is the cleaned argv so
far (reversed); later `<`/`>` records overwrite earlier ones. -/
def prLoop : List String → List String → Option String → Option String →
    List String × Option String × Option String
  | [], acc, i, o => (acc.reverse, i, o)
  | [t], acc, i, o => ((t :: acc).reverse, i, o)
  | t :: f :: rest, acc, i, o =>
    if t = "<" then prLoop rest acc (some f) o
    else if t = ">" then prLoop rest acc i (some f)
    else prLoop (f :: rest) (t :: acc) i o

/-- `parse_redirections`: returns `(cleaned argv, infile, outfile)`. -/
def parse_redirections (argv : List String) :
    List String × Option String × Option String :=
  prLoop argv [] none none

/-- Redirection parsing as the specification words it: scan left to right;
an operator with a following token consumes both and records the follower
(a later record winning); other tokens are preserved in order; a dangling
operator at the end stays in the cleaned vector. Used only to be compared
with `parse_redirections`. -/
def parse_redirections_spec : List String → List String × Option String × Option String
  | [] => ([], none, none)
  | [t] => ([t], none, none)
  | t :: f :: rest =>
    if t = "<" then
      let r := parse_redirections_spec rest
      (r.1, r.2.1 <|> some f, r.2.2)
    else if t = ">" then
      let r := parse_redirections_spec rest
      (r.1, r.2.1, r.2.2 <|> some f)
    else
      let r := parse_redirections_spec (f :: rest)
      (t :: r.1, r.2.1, r.2.2)

/-- One pipeline stage: argument vector plus optional input/output
redirection paths (the dict `{"argv":…, "in":…, "out":…}`). -/
structure Stage where
  argv : List String
  inf : Option String
  outf : Option String
deriving DecidableEq, Repr

/-- Body of the per-segment loop of `parse_line_into_stages`: tokenize,
drop the segment if it has no tokens, otherwise strip redirections. -/
def segToStage (seg : String) : Option Stage :=
  let argv := tokenize seg
  if argv = [] then none
  else
    let r := parse_redirections argv
    some ⟨r.1, r.2.1, r.2.2⟩

/-- `parse_line_into_stages`: background detection, pipeline split, then
per-segment tokenization and redirection parsing. -/
def parse_line_into_stages (line : String) : List Stage × Bool :=
  let p := parse_background line
  ((split_pipeline p.1).filterMap segToStage, p.2)

/-- Oracle record for the OS effects the engine performs. `statOk` and
`accessOk` model `os.stat` succeeding and `os.access(·, X_OK)`; `chdir`
models `os.chdir` (error text or the resulting working directory);
`openIn`/`openOut` model `os.open` for read / write-create-truncate
(error text on failure); `execErr` models `os.execve` (`some` error text,
or `none` when the image is replaced); `waitStatus i` is the raw wait
status eventually reported for the exec'ed child of stage `i`. -/
structure Ctx where
  home : Option String
  pathVar : String
  statOk : String → Bool
  accessOk : String → Bool
  cwd : String
  chdir : String → Except String String
  openIn : String → Except String Unit
  openOut : String → Except String Unit
  execErr : String → Option String
  waitStatus : Nat → Nat

/-- Python `chr(47) in s` (the path separator test of `resolve_command`). -/
def containsSlash (s : String) : Bool := s.data.contains '/'

/-- Python `':'.split` of `os.environ.get(chr(80)…)`: split on colons,
keeping empty components (an empty input gives one empty component). -/
def splitColonAux : List Char → List Char → List String
  | [], acc => [String.mk acc.reverse]
  | c :: rest, acc =>
    if c == ':' then String.mk acc.reverse :: splitColonAux rest []
    else splitColonAux rest (c :: acc)

/-- Split a search path value on `:`. -/
def splitColon (s : String) : List String := splitColonAux s.data []

/-- Test whether a string starts with the path separator. -/
def startsWithSlash (s : String) : Bool :=
  match s.data with
  | c :: _ => c == '/'
  | [] => false

/-- Test whether a string ends with the path separator. -/
def endsWithSlash (s : String) : Bool :=
  match s.data.getLast? with
  | some c => c == '/'
  | none => false

/-- `os.path.join` for two components as used by `resolve_command`. -/
def pathJoin (d p : String) : String :=
  if startsWithSlash p then p
  else if d = "" then p
  else if endsWithSlash d then d ++ p
  else d ++ "/" ++ p

/-- `is_executable`: `os.stat` must succeed and the execute bit be granted. -/
def is_executable (fp : String) (ctx : Ctx) : Bool :=
  if ctx.statOk fp then ctx.accessOk fp else false

/-- Loop of `resolve_command` over the split search path: an empty
component means the current directory; first executable candidate wins. -/
def searchPath (prog : String) (ctx : Ctx) : List String → Option String
  | [] => none
  | d :: ds =>
    let d2 := if d = "" then "." else d
    let cand := pathJoin d2 prog
    if is_executable cand ctx then some cand else searchPath prog ctx ds

/-- `resolve_command`: a name containing a slash is used verbatim when
executable; otherwise the search path is scanned. -/
def resolve_command (prog : String) (ctx : Ctx) : Option String :=
  if containsSlash prog then
    (if is_executable prog ctx then some prog else none)
  else searchPath prog ctx (splitColon ctx.pathVar)

/-- `is_builtin`: non-empty argv whose first token is `exit` or `cd`. -/
def is_builtin (argv : List String) : Bool :=
  match argv with
  | [] => false
  | a :: _ => a == "exit" || a == "cd"

/-- Python `int(s)` on a decimal string: optional surrounding whitespace,
optional sign, at least one digit; `none` models `ValueError`. -/
def pyIntOpt (s : String) : Option Int :=
  let t := pyStripL s.data
  let sd : Int × List Char :=
    match t with
    | c :: r => if c == '-' then (-1, r) else if c == '+' then (1, r) else (1, t)
    | [] => (1, [])
  if sd.2 ≠ [] ∧ sd.2.all (fun c => c.isDigit) then
    some (sd.1 * Int.ofNat (sd.2.foldl (fun n c => n * 10 + (c.toNat - 48)) 0))
  else none

/-- Result of `run_builtin`: `exitShell` models `sys.exit` (terminating the
calling process with the given code); `done` carries the returned exit
code, the working directory afterwards and the stderr lines written. -/
inductive BuiltinResult where
  | exitShell (code : Int)
  | done (code : Int) (newCwd : String) (errs : List String)
deriving DecidableEq, Repr

/-- Target directory of `cd`: the first argument after the command when
present, otherwise the home directory from the environment. -/
def cdTarget (rest : List String) (ctx : Ctx) : Option String :=
  match rest with
  | p :: _ => some p
  | [] => ctx.home

/-- `run_builtin`: `exit [code]` and `cd [path]`, any other argv returns 0. -/
def run_builtin (argv : List String) (ctx : Ctx) : BuiltinResult :=
  match argv with
  | [] => .done 0 ctx.cwd []
  | cmd :: rest =>
    if cmd = "exit" then
      let code : Int :=
        match rest with
        | [] => 0
        | a :: _ =>
          match pyIntOpt a with
          | some n => n
          | none => 1
      .exitShell code
    else if cmd = "cd" then
      match cdTarget rest ctx with
      | none => .done 1 ctx.cwd ["cd: HOME not set"]
      | some p =>
        match ctx.chdir p with
        | .ok d => .done 0 d []
        | .error e => .done 1 ctx.cwd ["cd: " ++ e]
    else .done 0 ctx.cwd []

/-- `setup_redirection`: open and `dup2` the input file, then the output
file; on the first failure report `"file: oserror"` to stderr and stop.
Returns the success flag and the stderr lines. -/
def setup_redirection (inf outf : Option String) (ctx : Ctx) :
    Bool × List String :=
  match inf with
  | some f =>
    match ctx.openIn f with
    | .error e => (false, [f ++ ": " ++ e])
    | .ok _ =>
      match outf with
      | some g =>
        match ctx.openOut g with
        | .error e => (false, [g ++ ": " ++ e])
        | .ok _ => (true, [])
      | none => (true, [])
  | none =>
    match outf with
    | some g =>
      match ctx.openOut g with
      | .error e => (false, [g ++ ": " ++ e])
      | .ok _ => (true, [])
    | none => (true, [])

/-- Visible behaviour of a child: `exited code errs outs` is an `os._exit`
with the stderr and stdout lines written before it, `execed path argv` a
successful image replacement. -/
inductive ChildOutcome where
  | exited (code : Int) (errs : List String) (outs : List String)
  | execed (path : String) (argv : List String)
deriving DecidableEq, Repr

/-- `exec_program`: empty argv exits 0; a resolution failure reports
`name: command not found` and exits 127; an `execve` failure reports the
OS error and exits 126. -/
def exec_program (argv : List String) (ctx : Ctx) : ChildOutcome :=
  match argv with
  | [] => .exited 0 [] []
  | prog :: _ =>
    match resolve_command prog ctx with
    | none => .exited 127 [prog ++ ": command not found"] []
    | some path =>
      match ctx.execErr path with
      | none => .execed path argv
      | some e => .exited 126 [prog ++ ": " ++ e] []

/-- Behaviour of an exec-path child of `run_pipeline` after the pipe
wiring: redirection setup, `os._exit(1)` on its failure, otherwise
`exec_program`. -/
def child_run (st : Stage) (ctx : Ctx) : ChildOutcome :=
  let r := setup_redirection st.inf st.outf ctx
  if r.1 then exec_program st.argv ctx
  else .exited 1 r.2 []

/-- `os.WIFEXITED`: low seven status bits are zero. -/
def wifexited (s : Nat) : Bool := s % 128 == 0

/-- `os.WEXITSTATUS`: bits 8–15 of the status. -/
def wexitstatus (s : Nat) : Nat := s / 256 % 256

/-- `os.WIFSIGNALED`: the termination signal field is neither 0 nor 127. -/
def wifsignaled (s : Nat) : Bool := !(s % 128 == 0) && !(s % 128 == 127)

/-- `os.WTERMSIG`: low seven status bits. -/
def wtermsig (s : Nat) : Nat := s % 128

/-- `status_to_exitcode`: exit code for a normal exit, `128 + signal` for a
signal death, 1 otherwise. -/
def status_to_exitcode (s : Nat) : Nat :=
  if wifexited s then wexitstatus s
  else if wifsignaled s then 128 + wtermsig s
  else 1

/-- Raw wait status of a child that called `os._exit(code)`: the low byte
of the code, shifted into the exit-status field. -/
def encodeExitStatus (c : Int) : Nat := (c % 256).toNat * 256

/-- What a spawned child was instructed to do: run a builtin (sole builtin
stage with redirection) or follow the exec path. -/
inductive ChildSpec where
  | builtinChild (argv : List String) (inf outf : Option String)
  | execChild (argv : List String) (inf outf : Option String)
deriving DecidableEq, Repr

/-- Value returned by `run_pipeline` to its caller: `ret code`, or
`shellExit code` when an in-process `exit` terminates the interpreter. -/
inductive RunResult where
  | ret (code : Int)
  | shellExit (code : Int)
deriving DecidableEq, Repr

/-- Observable trace of one `run_pipeline` call: the result, the children
spawned (in spawn order, pid `i` for the `i`-th) and the pids waited on. -/
structure PipelineTrace where
  result : RunResult
  spawned : List ChildSpec
  waited : List Nat
deriving DecidableEq, Repr

/-- Foreground wait loop of `run_pipeline`: wait on every pid in order,
remembering the status of the pid that equals the last element. -/
def waitLoop (pids : List Nat) (status : Nat → Nat) : Nat :=
  pids.foldl (fun last pid => if pids.getLast? = some pid then status pid else last) 0

/-- Exit code of the forked child that runs a sole builtin stage with
redirection: 1 if redirection setup fails, else the builtin's code
(`sys.exit` inside the child just exits the child). -/
def builtin_child_code (st : Stage) (ctx : Ctx) : Int :=
  let r := setup_redirection st.inf st.outf ctx
  if r.1 then
    match run_builtin st.argv ctx with
    | .exitShell c => c
    | .done c _ _ => c
  else 1

/-- Raw wait status of the exec-path child of stage `i`: the encoded exit
code when the child `os._exit`s, the oracle's status when it execs. -/
def exec_child_status (ctx : Ctx) (i : Nat) (st : Stage) : Nat :=
  match child_run st ctx with
  | .exited c _ _ => encodeExitStatus c
  | .execed _ _ => ctx.waitStatus i

/-- Raw wait status as a function of the pid for the exec-path children of
a pipeline (pid `i` runs stage `i`). -/
def extStatusOf (stages : List Stage) (ctx : Ctx) : Nat → Nat := fun i =>
  match stages[i]? with
  | some st => exec_child_status ctx i st
  | none => 0

/-- Exec path of `run_pipeline` (any pipeline that is not a sole builtin
stage): spawn one exec child per stage; background returns 0 at once,
foreground waits on every child and translates the last stage's status. -/
def run_external (stages : List Stage) (is_bg : Bool) (ctx : Ctx) :
    PipelineTrace :=
  let specs := stages.map (fun st => ChildSpec.execChild st.argv st.inf st.outf)
  let pids := List.range stages.length
  if is_bg then ⟨.ret 0, specs, []⟩
  else
    ⟨.ret (Int.ofNat (status_to_exitcode (waitLoop pids (extStatusOf stages ctx)))),
      specs, pids⟩

/-- `run_pipeline`: a sole builtin stage without redirection is dispatched
in-process; a sole builtin stage with redirection runs the builtin in a
forked child (unwaited when backgrounded); everything else takes the exec
path. -/
def run_pipeline (stages : List Stage) (is_bg : Bool) (ctx : Ctx) :
    PipelineTrace :=
  match stages with
  | [st] =>
    if is_builtin st.argv then
      if st.inf = none ∧ st.outf = none then
        match run_builtin st.argv ctx with
        | .exitShell c => ⟨.shellExit c, [], []⟩
        | .done c _ _ => ⟨.ret c, [], []⟩
      else
        if is_bg then ⟨.ret 0, [ChildSpec.builtinChild st.argv st.inf st.outf], []⟩
        else
          ⟨.ret (Int.ofNat (status_to_exitcode
              (encodeExitStatus (builtin_child_code st ctx)))),
            [ChildSpec.builtinChild st.argv st.inf st.outf], [0]⟩
    else run_external [st] is_bg ctx
  | other => run_external other is_bg ctx

/-- Test for the one dispatch that stays in-process: a sole builtin stage
with neither input nor output redirection. -/
def inProcessCase (stages : List Stage) : Bool :=
  match stages with
  | [st] => is_builtin st.argv && st.inf == none && st.outf == none
  | _ => false

/-- Test for the sole-builtin-stage special case of `run_pipeline`. -/
def isSingleBuiltin (stages : List Stage) : Bool :=
  match stages with
  | [st] => is_builtin st.argv
  | _ => false

/-- Concrete context in which every OS operation succeeds. -/
def ctx0 : Ctx where
  home := some "/home/u"
  pathVar := "/bin"
  statOk := fun _ => true
  accessOk := fun _ => true
  cwd := "/"
  chdir := fun p => .ok p
  openIn := fun _ => .ok ()
  openOut := fun _ => .ok ()
  execErr := fun _ => none
  waitStatus := fun _ => 0

/-- Concrete context for a `false | true` pipeline: stage 0's child exits
with code 1 (raw status 256), stage 1's child exits with code 0. -/
def ctxFT : Ctx :=
  { ctx0 with waitStatus := fun i => if i = 0 then 256 else 0 }

/-- Concrete context with no home directory and a failing `chdir`. -/
def ctxNoHome : Ctx :=
  { ctx0 with home := none, chdir := fun _ => .error "No such file or directory" }

/-- Concrete context in which no file stats successfully, so no command
resolves. -/
def ctxNotFound : Ctx := { ctx0 with statOk := fun _ => false }

/-- Helper: an `orElse` whose left side is saturated by a `some` absorbs a
further alternative. -/
theorem orElse_some_absorb (x : Option String) (f : String) (i : Option String) :
    ((x <|> some f) <|> i) = (x <|> some f) := by
  cases x <;> rfl

/-- Helper: an `orElse` with a `some` fallback is `some`. -/
theorem isSome_orElse_some (x : Option String) (f : String) :
    (x <|> some f).isSome = true := by
  cases x <;> rfl

/-- Helper: the iterative redirection loop computes the spec-style
recursion, with the accumulator prefixed and later records winning. -/
theorem prLoop_eq_spec (ts : List String) (acc : List String)
    (i o : Option String) :
    prLoop ts acc i o =
      (acc.reverse ++ (parse_redirections_spec ts).1,
        (parse_redirections_spec ts).2.1 <|> i,
        (parse_redirections_spec ts).2.2 <|> o) := by
  induction ts, acc, i, o using prLoop.induct with
  | case1 acc i o => simp [prLoop, parse_redirections_spec]
  | case2 t acc i o => simp [prLoop, parse_redirections_spec]
  | case3 f rest acc i o ih =>
    simp [prLoop, parse_redirections_spec, ih, orElse_some_absorb]
  | case4 f rest acc i o h ih =>
    simp [prLoop, parse_redirections_spec, ih, orElse_some_absorb]
  | case5 t f rest acc i o h1 h2 ih =>
    simp [prLoop, parse_redirections_spec, h1, h2, ih, List.append_assoc]

/-- Helper: `parse_redirections` equals its specification reading. -/
theorem pr_eq_spec (argv : List String) :
    parse_redirections argv = parse_redirections_spec argv := by
  unfold parse_redirections
  rw [prLoop_eq_spec]
  simp [Option.orElse_none]

/-- Helper: a non-empty token vector whose cleaned argv is empty recorded
at least one redirection path. -/
theorem pr_out_nil_some (ts : List String) (hne : ts ≠ [])
    (h : (parse_redirections ts).1 = []) :
    (parse_redirections ts).2.1.isSome = true ∨
      (parse_redirections ts).2.2.isSome = true := by
  rw [pr_eq_spec] at h ⊢
  match ts with
  | [] => exact absurd rfl hne
  | [t] => simp [parse_redirections_spec] at h
  | t :: f :: rest =>
    by_cases h1 : t = "<"
    · left
      simp only [parse_redirections_spec, if_pos h1]
      exact isSome_orElse_some _ _
    · by_cases h2 : t = ">"
      · right
        simp only [parse_redirections_spec, if_neg h1, if_pos h2]
        exact isSome_orElse_some _ _
      · simp [parse_redirections_spec, h1, h2] at h

/-- C8: `parse_redirections` scans left to right, each `<` (resp. `>`)
with a following token consumes both and records the follower as the
input (resp. output) path with the last occurrence winning, all other
tokens are preserved in order, and a dangling trailing operator is left
in the cleaned argument vector — i.e. it coincides with the
specification-worded recursion `parse_redirections_spec`. -/
theorem claim_C8_parse_redirections (argv : List String) :
    parse_redirections argv = parse_redirections_spec argv :=
  pr_eq_spec argv

/-- C1 counterexample: the line `< f` (a segment consisting only of
redirection tokens) is parsed into a stage whose argv is empty, and
`run_pipeline` schedules that stage as a spawned child. -/
theorem claim_C1_counterexample :
    (parse_line_into_stages "< f").1 = [⟨[], some "f", none⟩] ∧
      (run_pipeline [⟨[], some "f", none⟩] false ctx0).spawned =
        [ChildSpec.execChild [] (some "f") none] := by
  constructor
  · decide
  · decide

/-- C1 (amended): `parse_line_into_stages` drops only segments with no
tokens at all, so a stage with empty argv can still be produced (and is
scheduled) for a segment consisting only of redirection tokens; such a
stage always carries at least one recorded redirection path, and
`exec_program` treats its empty argv as an immediate successful exit
(status 0, nothing written). -/
theorem claim_C1_amended (line : String) (st : Stage) (ctx : Ctx)
    (hmem : st ∈ (parse_line_into_stages line).1) (hargv : st.argv = []) :
    (st.inf.isSome = true ∨ st.outf.isSome = true) ∧
      exec_program st.argv ctx = .exited 0 [] [] := by
  refine ⟨?_, by rw [hargv]; rfl⟩
  have hmem2 : st ∈ (split_pipeline (parse_background line).1).filterMap segToStage := hmem
  rw [List.mem_filterMap] at hmem2
  obtain ⟨seg, -, hseg⟩ := hmem2
  unfold segToStage at hseg
  by_cases he : tokenize seg = []
  · simp [he] at hseg
  · simp only [if_neg he] at hseg
    obtain rfl := Option.some.inj hseg
    have hnil : (parse_redirections (tokenize seg)).1 = [] := hargv
    exact pr_out_nil_some (tokenize seg) he hnil

/-- C1 witness: the amended theorem applied to the line `< f`. -/
theorem claim_C1_witness :
    ((Stage.mk [] (some "f") none).inf.isSome = true ∨
        (Stage.mk [] (some "f") none).outf.isSome = true) ∧
      exec_program (Stage.mk [] (some "f") none).argv ctx0 =
        .exited 0 [] [] :=
  claim_C1_amended "< f" ⟨[], some "f", none⟩ ctx0 (by decide) rfl

/-- C10: tokenizing `''` or `""` yields a single empty-string token, and a
stage's argv can therefore contain empty-string arguments (the line
`x ''` parses to the single stage with argv `[x, ]` and no redirection). -/
theorem claim_C10_empty_quotes :
    tokenize (String.mk [squoteC, squoteC]) = [""] ∧
      tokenize (String.mk [dquoteC, dquoteC]) = [""] ∧
      (parse_line_into_stages (String.mk ['x', ' ', squoteC, squoteC])).1 =
        [⟨["x", ""], none, none⟩] := by
  refine ⟨by decide, by decide, by decide⟩

/-- C6: `run_builtin` for `cd` changes the working directory to the target
path (the first argument, defaulting to the home directory) and returns 0
on success; when the home directory is unset and no argument is given, or
when the directory change fails, it reports an error line to stderr,
returns exit code 1 and leaves the working directory unchanged. -/
theorem claim_C6_cd (ctx : Ctx) (rest : List String) :
    (cdTarget rest ctx = none →
        run_builtin ("cd" :: rest) ctx = .done 1 ctx.cwd ["cd: HOME not set"]) ∧
    (∀ p d, cdTarget rest ctx = some p → ctx.chdir p = .ok d →
        run_builtin ("cd" :: rest) ctx = .done 0 d []) ∧
    (∀ p e, cdTarget rest ctx = some p → ctx.chdir p = .error e →
        run_builtin ("cd" :: rest) ctx = .done 1 ctx.cwd ["cd: " ++ e]) := by
  refine ⟨fun h => ?_, fun p d hp hc => ?_, fun p e hp hc => ?_⟩
  · simp [run_builtin, h]
  · simp [run_builtin, hp, hc]
  · simp [run_builtin, hp, hc]

/-- C6 witness: `cd` with no argument and no home fails with code 1 and an
unchanged working directory; `cd /tmp` in a healthy context succeeds. -/
theorem claim_C6_witness :
    run_builtin ["cd"] ctxNoHome = .done 1 "/" ["cd: HOME not set"] ∧
    run_builtin ["cd", "/tmp"] ctx0 = .done 0 "/tmp" [] := by
  constructor
  · exact ((claim_C6_cd ctxNoHome []).1 rfl).trans (by decide)
  · exact (claim_C6_cd ctx0 ["/tmp"]).2.1 "/tmp" "/tmp" rfl rfl

/-- Helper: the search loop of `resolve_command` returns the first
executable candidate, in the order of the split search path. -/
theorem searchPath_eq_find (prog : String) (ctx : Ctx) (dirs : List String) :
    searchPath prog ctx dirs =
      (dirs.map (fun d => pathJoin (if d = "" then "." else d) prog)).find?
        (fun cand => is_executable cand ctx) := by
  induction dirs with
  | nil => rfl
  | cons d ds ih =>
    by_cases hx : is_executable (pathJoin (if d = "" then "." else d) prog) ctx = true
    · simp [searchPath, List.find?_cons, hx]
    · simp [searchPath, List.find?_cons, hx, ih]

/-- C7: `resolve_command` returns a slash-containing name verbatim exactly
when it stats successfully and is executable; a plain name is resolved to
the first executable `dir/prog` over the colon-split search path, an empty
component standing for the current directory, and fails (returns `none`)
when no directory matches. -/
theorem claim_C7_resolve (prog : String) (ctx : Ctx) :
    (containsSlash prog = true →
        resolve_command prog ctx =
          (if is_executable prog ctx then some prog else none) ∧
        (resolve_command prog ctx = some prog ↔
          (ctx.statOk prog = true ∧ ctx.accessOk prog = true))) ∧
    (containsSlash prog = false →
        resolve_command prog ctx =
          ((splitColon ctx.pathVar).map
              (fun d => pathJoin (if d = "" then "." else d) prog)).find?
            (fun cand => is_executable cand ctx)) := by
  constructor
  · intro h
    have he : resolve_command prog ctx =
        if is_executable prog ctx then some prog else none := by
      unfold resolve_command
      rw [if_pos h]
    refine ⟨he, ?_⟩
    rw [he]
    constructor
    · intro hsome
      by_cases hx : is_executable prog ctx = true
      · unfold is_executable at hx
        by_cases hs : ctx.statOk prog = true
        · exact ⟨hs, by rwa [if_pos hs] at hx⟩
        · rw [if_neg hs] at hx
          exact absurd hx (by simp)
      · rw [if_neg hx] at hsome
        exact absurd hsome (by simp)
    · rintro ⟨hs, ha⟩
      have hx : is_executable prog ctx = true := by
        unfold is_executable
        rw [if_pos hs]
        exact ha
      rw [if_pos hx]
  · intro h
    unfold resolve_command
    rw [if_neg (by simp [h]), searchPath_eq_find]

/-- C7 witness: a slash-qualified executable name resolves verbatim, and a
plain name resolves through the search path. -/
theorem claim_C7_witness :
    resolve_command "bin/ls" ctx0 = some "bin/ls" ∧
    resolve_command "ls" ctx0 = some "/bin/ls" := by
  constructor
  · exact ((claim_C7_resolve "bin/ls" ctx0).1 (by decide)).2.mpr ⟨rfl, rfl⟩
  · exact ((claim_C7_resolve "ls" ctx0).2 (by decide)).trans (by decide)

/-- C3: in a spawned exec-path child, a resolution failure writes
`name: command not found` to stderr only and exits 127; a redirection
open failure writes the OS error to stderr only and exits 1; an `execve`
failure after successful resolution writes the OS error to stderr only
and exits 126. -/
theorem claim_C3_child_failures (st : Stage) (ctx : Ctx) (prog : String)
    (rest : List String) (hargv : st.argv = prog :: rest) :
    (setup_redirection st.inf st.outf ctx = (true, []) →
        resolve_command prog ctx = none →
        child_run st ctx = .exited 127 [prog ++ ": command not found"] []) ∧
    (∀ msgs, setup_redirection st.inf st.outf ctx = (false, msgs) →
        child_run st ctx = .exited 1 msgs []) ∧
    (∀ f e, st.inf = some f → ctx.openIn f = .error e →
        child_run st ctx = .exited 1 [f ++ ": " ++ e] []) ∧
    (∀ p e, setup_redirection st.inf st.outf ctx = (true, []) →
        resolve_command prog ctx = some p → ctx.execErr p = some e →
        child_run st ctx = .exited 126 [prog ++ ": " ++ e] []) := by
  refine ⟨fun hsetup hres => ?_, fun msgs hsetup => ?_,
    fun f e hf he => ?_, fun p e hsetup hres hexec => ?_⟩
  · simp [child_run, hsetup, exec_program, hargv, hres]
  · simp [child_run, hsetup]
  · simp [child_run, setup_redirection, hf, he]
  · simp [child_run, hsetup, exec_program, hargv, hres, hexec]

/-- C3 witness: an unresolvable program name in a context where nothing
stats successfully yields exit 127 with the required stderr line. -/
theorem claim_C3_witness :
    child_run ⟨["zzz"], none, none⟩ ctxNotFound =
      .exited 127 ["zzz: command not found"] [] := by
  have h := claim_C3_child_failures ⟨["zzz"], none, none⟩ ctxNotFound "zzz" [] rfl
  exact h.1 (by decide) (by decide)

/-- Helper: `run_pipeline` takes the exec path whenever the pipeline is
not a sole builtin stage. -/
theorem run_pipeline_eq_external (stages : List Stage) (is_bg : Bool)
    (ctx : Ctx) (h : isSingleBuiltin stages = false) :
    run_pipeline stages is_bg ctx = run_external stages is_bg ctx := by
  match stages with
  | [] => rfl
  | [st] =>
    have hb : is_builtin st.argv = false := by simpa [isSingleBuiltin] using h
    simp [run_pipeline, hb]
  | a :: b :: t => rfl

/-- Helper: folding the conditional-update body of the wait loop selects
the status of the target pid when it occurs in the list. -/
theorem foldl_pick (s : Nat → Nat) (t : Nat) (l : List Nat) :
    ∀ init : Nat,
      l.foldl (fun last pid => if t = pid then s pid else last) init =
        if t ∈ l then s t else init := by
  induction l with
  | nil => intro init; simp
  | cons a l ih =>
    intro init
    rw [List.foldl_cons, ih]
    by_cases h : t = a
    · subst h
      simp
    · simp [List.mem_cons, h]

/-- Helper: membership from `getLast?`. -/
theorem mem_of_getLast?_eq {α : Type} (l : List α) (m : α)
    (h : l.getLast? = some m) : m ∈ l := by
  induction l with
  | nil => simp at h
  | cons a t ih =>
    cases t with
    | nil =>
      simp only [List.getLast?_singleton, Option.some.injEq] at h
      simp [h]
    | cons b t2 =>
      rw [List.getLast?_cons_cons] at h
      exact List.mem_cons_of_mem _ (ih h)

/-- Helper: the wait loop of `run_pipeline` yields the status of the last
pid, whatever the statuses of the other children are. -/
theorem waitLoop_getLast (pids : List Nat) (m : Nat) (s : Nat → Nat)
    (h : pids.getLast? = some m) : waitLoop pids s = s m := by
  have hm : m ∈ pids := mem_of_getLast?_eq pids m h
  unfold waitLoop
  simp only [h, Option.some.injEq]
  rw [foldl_pick]
  exact if_pos hm

/-- Helper: the last element of `List.range (n+1)` is `n`. -/
theorem range_getLast (n : Nat) : (List.range (n + 1)).getLast? = some n := by
  rw [List.range_succ]
  exact List.getLast?_concat _

/-- Helper: the foreground exec path waits on every pid in spawn order and
translates the raw status of the last stage. -/
theorem run_external_foreground (stages : List Stage) (ctx : Ctx)
    (stLast : Stage) (h : stages.getLast? = some stLast) :
    run_external stages false ctx =
      ⟨.ret (Int.ofNat (status_to_exitcode
          (exec_child_status ctx (stages.length - 1) stLast))),
        stages.map (fun st => ChildSpec.execChild st.argv st.inf st.outf),
        List.range stages.length⟩ := by
  obtain ⟨k, hk⟩ : ∃ k, stages.length = k + 1 := by
    cases stages with
    | nil => simp at h
    | cons a t => exact ⟨t.length, rfl⟩
  have h1 : (List.range stages.length).getLast? = some (stages.length - 1) := by
    rw [hk]
    simpa using range_getLast k
  have h2 := waitLoop_getLast _ _ (extStatusOf stages ctx) h1
  have h3 : extStatusOf stages ctx (stages.length - 1) =
      exec_child_status ctx (stages.length - 1) stLast := by
    unfold extStatusOf
    rw [← List.getLast?_eq_getElem?, h]
  simp only [run_external, Bool.false_eq_true, if_false, h2, h3]

/-- C2: a foreground pipeline that forks children waits on every spawned
child (in spawn order, so independent of finish order) and returns the
translated wait status of the last stage; the translation yields the
low-order exit code for a normal exit, 128 plus the signal number for a
signal death, and 1 otherwise. -/
theorem claim_C2_last_status (stages : List Stage) (ctx : Ctx)
    (stLast : Stage) (hlast : stages.getLast? = some stLast)
    (hnotin : inProcessCase stages = false) :
    ((isSingleBuiltin stages = false →
        (run_pipeline stages false ctx).waited = List.range stages.length ∧
        (run_pipeline stages false ctx).result =
          .ret (Int.ofNat (status_to_exitcode
            (exec_child_status ctx (stages.length - 1) stLast)))) ∧
      (isSingleBuiltin stages = true →
        (run_pipeline stages false ctx).waited = List.range stages.length ∧
        (run_pipeline stages false ctx).result =
          .ret (Int.ofNat (status_to_exitcode
            (encodeExitStatus (builtin_child_code stLast ctx)))))) ∧
    (∀ c : Nat, status_to_exitcode (c % 256 * 256) = c % 256) ∧
    (∀ s : Nat, s % 128 ≠ 0 → s % 128 ≠ 127 →
        status_to_exitcode s = 128 + s % 128) ∧
    (∀ s : Nat, s % 128 = 127 → status_to_exitcode s = 1) := by
  refine ⟨⟨fun hsb => ?_, fun hsb => ?_⟩, fun c => ?_, fun s h1 h2 => ?_,
    fun s h1 => ?_⟩
  · rw [run_pipeline_eq_external _ _ _ hsb, run_external_foreground _ _ _ hlast]
    exact ⟨rfl, rfl⟩
  · match stages with
    | [] => simp [isSingleBuiltin] at hsb
    | a :: b :: t => simp [isSingleBuiltin] at hsb
    | [st] =>
      have hb : is_builtin st.argv = true := by
        simpa [isSingleBuiltin] using hsb
      have hst : stLast = st := by
        simp only [List.getLast?_singleton, Option.some.injEq] at hlast
        exact hlast.symm
      have hr : ¬(st.inf = none ∧ st.outf = none) := by
        rintro ⟨hi, ho⟩
        simp [inProcessCase, hb, hi, ho] at hnotin
      subst hst
      simp [run_pipeline, hb, hr, List.range_succ]
  · have h0 : c % 256 * 256 % 128 = 0 := by omega
    simp [status_to_exitcode, wifexited, wexitstatus, h0]
  · simp [status_to_exitcode, wifexited, wifsignaled, wtermsig, h1, h2]
  · simp [status_to_exitcode, wifexited, wifsignaled, h1]

/-- C2 witness: the pipeline `false | true` (stage 0 exits 1, stage 1
exits 0) reports status 0 and waits on both children. -/
theorem claim_C2_witness :
    (run_pipeline [⟨["false"], none, none⟩, ⟨["true"], none, none⟩]
        false ctxFT).result = .ret 0 ∧
    (run_pipeline [⟨["false"], none, none⟩, ⟨["true"], none, none⟩]
        false ctxFT).waited = [0, 1] := by
  have h := (claim_C2_last_status
    [⟨["false"], none, none⟩, ⟨["true"], none, none⟩] ctxFT
    ⟨["true"], none, none⟩ (by decide) (by decide)).1.1 (by decide)
  exact ⟨h.2.trans (by decide), h.1.trans (by decide)⟩

/-- C5 counterexample: a background-flagged sole `cd` stage without
redirection runs the builtin in-process and returns its own status — here
1, not 0 — so not every background pipeline reports status 0. -/
theorem claim_C5_counterexample :
    (run_pipeline [⟨["cd"], none, none⟩] true ctxNoHome).result = .ret 1 ∧
      RunResult.ret 1 ≠ RunResult.ret 0 := by
  exact ⟨by decide, by decide⟩

/-- C5 (amended): for every background pipeline except a sole builtin
stage without redirection (which is dispatched in-process regardless of
the background flag and returns the builtin's own status), `run_pipeline`
returns status 0 immediately and waits on no child. -/
theorem claim_C5_amended (stages : List Stage) (ctx : Ctx)
    (h : inProcessCase stages = false) :
    (run_pipeline stages true ctx).result = .ret 0 ∧
    (run_pipeline stages true ctx).waited = [] := by
  match stages with
  | [] => exact ⟨rfl, rfl⟩
  | [st] =>
    by_cases hb : is_builtin st.argv = true
    · have hr : ¬(st.inf = none ∧ st.outf = none) := by
        rintro ⟨hi, ho⟩
        simp [inProcessCase, hb, hi, ho] at h
      simp [run_pipeline, hb, hr]
    · have hb2 : is_builtin st.argv = false := by simpa using hb
      simp [run_pipeline, hb2, run_external]
  | a :: b :: t => exact ⟨rfl, rfl⟩

/-- C5 witness: a background single-stage external pipeline returns 0
without waiting. -/
theorem claim_C5_witness :
    (run_pipeline [⟨["sleep", "1"], none, none⟩] true ctx0).result = .ret 0 ∧
    (run_pipeline [⟨["sleep", "1"], none, none⟩] true ctx0).waited = [] :=
  claim_C5_amended [⟨["sleep", "1"], none, none⟩] ctx0 (by decide)

/-- C4 counterexample: a sole `cd` stage with an output redirection is
forked, but the child runs the builtin itself rather than being treated
exactly like an external command (it is a `builtinChild`, not the
`execChild` an external command gets). -/
theorem claim_C4_counterexample :
    (run_pipeline [⟨["cd"], none, some "o"⟩] false ctx0).spawned =
        [ChildSpec.builtinChild ["cd"] none (some "o")] ∧
      ChildSpec.builtinChild ["cd"] none (some "o") ≠
        ChildSpec.execChild ["cd"] none (some "o") := by
  exact ⟨by decide, by decide⟩

/-- C4 (amended): a command is a builtin iff its first token is `exit` or
`cd`; a builtin runs in the interpreter's own process exactly when it is
the sole stage and has no redirection; a sole builtin stage with
redirection is forked with the builtin run inside the child; and in every
other case (more than one stage, or a non-builtin) all stages are forked
children on the exec path, exactly like external commands. -/
theorem claim_C4_amended (stages : List Stage) (is_bg : Bool) (ctx : Ctx) :
    (∀ argv : List String, is_builtin argv = true ↔
        ∃ rest, argv = "exit" :: rest ∨ argv = "cd" :: rest) ∧
    (stages ≠ [] →
        ((run_pipeline stages is_bg ctx).spawned = [] ↔
          inProcessCase stages = true)) ∧
    (∀ st, stages = [st] → is_builtin st.argv = true →
        inProcessCase stages = false →
        (run_pipeline stages is_bg ctx).spawned =
          [ChildSpec.builtinChild st.argv st.inf st.outf]) ∧
    (isSingleBuiltin stages = false →
        (run_pipeline stages is_bg ctx).spawned =
          stages.map (fun st => ChildSpec.execChild st.argv st.inf st.outf)) := by
  refine ⟨fun argv => ?_, fun hne => ?_, fun st hst hb hnotin => ?_,
    fun hsb => ?_⟩
  · cases argv with
    | nil => simp [is_builtin]
    | cons a r =>
      simp only [is_builtin, Bool.or_eq_true, beq_iff_eq]
      constructor
      · rintro (h | h) <;> exact ⟨r, by simp [h]⟩
      · rintro ⟨rest, h | h⟩ <;> injection h with h1 h2 <;> simp [h1]
  · match stages with
    | [] => exact absurd rfl hne
    | [st] =>
      by_cases hb : is_builtin st.argv = true
      · by_cases hr : st.inf = none ∧ st.outf = none
        · cases hrb : run_builtin st.argv ctx <;>
            simp [run_pipeline, hb, hr, hrb, inProcessCase, hr.1, hr.2]
        · simp [run_pipeline, hb, hr, inProcessCase, apply_ite]
      · have hb2 : is_builtin st.argv = false := by simpa using hb
        simp [run_pipeline, hb2, run_external, inProcessCase, apply_ite, hb2]
    | a :: b :: t =>
      simp [run_pipeline, run_external, inProcessCase, apply_ite]
  · subst hst
    have hr : ¬(st.inf = none ∧ st.outf = none) := by
      rintro ⟨hi, ho⟩
      simp [inProcessCase, hb, hi, ho] at hnotin
    simp [run_pipeline, hb, hr, apply_ite]
  · rw [run_pipeline_eq_external _ _ _ hsb]
    simp [run_external, apply_ite]

/-- C4 witness: a two-stage pipeline spawns exec children for both
stages. -/
theorem claim_C4_witness :
    (run_pipeline [⟨["echo"], none, none⟩, ⟨["wc"], none, none⟩]
        false ctx0).spawned =
      [ChildSpec.execChild ["echo"] none none,
        ChildSpec.execChild ["wc"] none none] := by
  have h := (claim_C4_amended [⟨["echo"], none, none⟩, ⟨["wc"], none, none⟩]
    false ctx0).2.2.2 (by decide)
  exact h.trans (by decide)

/-- Helper: scanning for a closing quote consumes exactly up to the
appended quote when the body contains none. -/
theorem findClose_of_not_mem (q : Char) (s : List Char)
    (h : ∀ c ∈ s, ¬(c = q)) : findClose q (s ++ [q]) = some (s, []) := by
  induction s with
  | nil => simp [findClose]
  | cons c r ih =>
    have hc : (c == q) = false := by
      have := h c (List.mem_cons_self c r)
      simp [this]
    simp [findClose, hc, ih (fun x hx => h x (List.mem_cons_of_mem _ hx))]

/-- Helper: the regex group matches a whole quoted run at the head of the
input, quotes included. -/
theorem groupMatch_quoted (q : Char) (hq : q = squoteC ∨ q = dquoteC)
    (s : List Char) (h : ∀ c ∈ s, ¬(c = q)) :
    groupMatch (q :: (s ++ [q])) = some (q :: (s ++ [q]), []) := by
  have hne : (dquoteC == squoteC) = false := by decide
  rcases hq with rfl | rfl
  · simp [groupMatch, findClose_of_not_mem _ _ h]
  · simp [groupMatch, hne, findClose_of_not_mem _ _ h]

/-- Helper: both quote characters are outside the whitespace class. -/
theorem isWs_quotes : isWs squoteC = false ∧ isWs dquoteC = false := by decide

/-- Helper: `reMatch` on a quote-headed input skips no whitespace and
matches the quoted run. -/
theorem reMatch_quoted (q : Char) (hq : q = squoteC ∨ q = dquoteC)
    (s : List Char) (h : ∀ c ∈ s, ¬(c = q)) :
    reMatch (q :: (s ++ [q])) = some (q :: (s ++ [q]), []) := by
  have hws : isWs q = false := by
    rcases hq with rfl | rfl
    · exact isWs_quotes.1
    · exact isWs_quotes.2
  have hlead : leadingWs (q :: (s ++ [q])) = 0 := by
    simp [leadingWs, List.takeWhile, hws]
  rw [reMatch, hlead]
  exact groupMatch_quoted q hq s h

/-- Helper: quote stripping removes the delimiters of a quoted run. -/
theorem stripQuotes_quoted (q : Char) (hq : q = squoteC ∨ q = dquoteC)
    (s : List Char) : stripQuotes (q :: (s ++ [q])) = s := by
  have hccat : q :: (s ++ [q]) = (q :: s) ++ [q] := by simp
  have hlast : (q :: (s ++ [q])).getLast? = some q := by
    rw [hccat]
    exact List.getLast?_concat _
  have hcond : 2 ≤ (q :: (s ++ [q])).length ∧
      (((q :: (s ++ [q])).head? = some squoteC ∧
          (q :: (s ++ [q])).getLast? = some squoteC) ∨
        ((q :: (s ++ [q])).head? = some dquoteC ∧
          (q :: (s ++ [q])).getLast? = some dquoteC)) := by
    refine ⟨by simp, ?_⟩
    rcases hq with rfl | rfl
    · exact Or.inl ⟨rfl, hlast⟩
    · exact Or.inr ⟨rfl, hlast⟩
  rw [stripQuotes, if_pos hcond]
  simp

/-- Helper: every fuel value tokenizes the empty input to no tokens. -/
theorem tokenizeGo_nil (fuel : Nat) : tokenizeGo fuel [] = [] := by
  cases fuel <;> rfl

/-- Helper: one step of the tokenizer loop on a successful regex match. -/
theorem tokenizeGo_step_some (fuel : Nat) (c : Char) (rest tok rem : List Char)
    (h : reMatch (c :: rest) = some (tok, rem)) :
    tokenizeGo (fuel + 1) (c :: rest) =
      stripQuotes tok :: tokenizeGo fuel rem := by
  simp only [tokenizeGo, h]

/-- Helper: a quoted run (with a quote-free body) tokenizes to exactly the
body, delimiters stripped. -/
theorem tokenizeL_quoted (q : Char) (hq : q = squoteC ∨ q = dquoteC)
    (s : List Char) (h : ∀ c ∈ s, ¬(c = q)) :
    tokenizeL (q :: (s ++ [q])) = [s] := by
  unfold tokenizeL
  rw [List.length_cons,
    tokenizeGo_step_some _ _ _ _ _ (reMatch_quoted q hq s h),
    tokenizeGo_nil, stripQuotes_quoted q hq s]

/-- Helper: a bare-class character is neither quote character. -/
theorem bare_not_quote (c : Char) (hc : isBareChar c = true) :
    (c == squoteC) = false ∧ (c == dquoteC) = false := by
  constructor
  · cases hcq : c == squoteC
    · rfl
    · unfold isBareChar at hc
      rw [hcq] at hc
      simp at hc
  · cases hcq : c == dquoteC
    · rfl
    · unfold isBareChar at hc
      rw [hcq] at hc
      simp at hc

/-- Helper: the regex group matches a maximal bare run. -/
theorem groupMatch_bare (c : Char) (r : List Char) (hc : isBareChar c = true)
    (hr : ∀ x ∈ r, isBareChar x = true) :
    groupMatch (c :: r) = some (c :: r, []) := by
  obtain ⟨h1, h2⟩ := bare_not_quote c hc
  simp [groupMatch, h1, h2, hc, List.takeWhile_eq_self_iff.mpr hr,
    List.dropWhile_eq_nil_iff.mpr hr]

/-- Helper: quote stripping leaves a token intact when its head is not a
quote character. -/
theorem stripQuotes_bare (c : Char) (r : List Char) (hc : isBareChar c = true) :
    stripQuotes (c :: r) = c :: r := by
  obtain ⟨h1, h2⟩ := bare_not_quote c hc
  rw [stripQuotes, if_neg]
  rintro ⟨-, ⟨hh, -⟩ | ⟨hh, -⟩⟩
  · rw [List.head?_cons, Option.some.injEq] at hh
    subst hh
    simp at h1
  · rw [List.head?_cons, Option.some.injEq] at hh
    subst hh
    simp at h2

/-- Helper: a non-empty all-bare input whose head is not whitespace
tokenizes to a single token, itself. -/
theorem tokenizeL_bare (c : Char) (r : List Char) (hc : isBareChar c = true)
    (hw : isWs c = false) (hr : ∀ x ∈ r, isBareChar x = true) :
    tokenizeL (c :: r) = [c :: r] := by
  have hlead : leadingWs (c :: r) = 0 := by
    simp [leadingWs, List.takeWhile, hw]
  have hmatch : reMatch (c :: r) = some (c :: r, []) := by
    rw [reMatch, hlead]
    exact groupMatch_bare c r hc hr
  unfold tokenizeL
  rw [List.length_cons, tokenizeGo_step_some _ _ _ _ _ hmatch,
    tokenizeGo_nil, stripQuotes_bare c r hc]

/-- C9: the tokenizer matches a single-quoted run, a double-quoted run or
a maximal bare run, skipping whitespace and stripping quote delimiters,
with no backslash-escape processing; in particular the segment
`'a b' "c d" e` tokenizes to exactly `a b`, `c d`, `e`, and a backslash is
an ordinary token character. -/
theorem claim_C9_tokenize :
    tokenize (String.mk [squoteC, 'a', ' ', 'b', squoteC, ' ',
        dquoteC, 'c', ' ', 'd', dquoteC, ' ', 'e']) = ["a b", "c d", "e"] ∧
    (∀ q : Char, (q = squoteC ∨ q = dquoteC) →
        ∀ s : List Char, (∀ c ∈ s, ¬(c = q)) →
          tokenizeL (q :: (s ++ [q])) = [s]) ∧
    (∀ (c : Char) (r : List Char), isBareChar c = true → isWs c = false →
        (∀ x ∈ r, isBareChar x = true) → tokenizeL (c :: r) = [c :: r]) ∧
    tokenize "ab\\cd e" = ["ab\\cd", "e"] := by
  refine ⟨by decide, tokenizeL_quoted, tokenizeL_bare, by decide⟩

/-- C9 witness: the quoted-run and bare-run parts of the tokenizer theorem
applied at concrete inputs. -/
theorem claim_C9_witness :
    tokenizeL (squoteC :: (['x', ' ', 'y'] ++ [squoteC])) = [['x', ' ', 'y']] ∧
    tokenizeL ('h' :: ['i']) = [['h', 'i']] :=
  ⟨claim_C9_tokenize.2.1 squoteC (Or.inl rfl) ['x', ' ', 'y'] (by decide),
    claim_C9_tokenize.2.2.1 'h' ['i'] (by decide) (by decide) (by decide)⟩

end Shell
